import Mathlib

/-!
Verification development for the `ab-solanki/cookie` repository: a cookie-consent
widget (banner + preference modal) and a companion configuration backend.

The definitions below are a shallow embedding of the relevant TypeScript /
JavaScript source functions.  JavaScript runtime values produced by
`JSON.parse` and manipulated by the widget are modelled by the inductive
type `JSVal`; objects are association lists in property insertion order.
-/

namespace Cookie

/-- A JavaScript value, as produced by `JSON.parse` or built by widget code.
`undefined` models the JavaScript value `undefined` (never produced by
`JSON.parse`, but produced by property access on a missing key). -/
inductive JSVal where
  | null
  | undefined
  | bool (b : Bool)
  | num (n : Int)
  | str (s : String)
  | arr (elems : List JSVal)
  | obj (fields : List (String × JSVal))

/-- JavaScript truthiness: `null`, `undefined`, `false`, `0` and the empty
string are falsy; every object (including the empty object and every array)
is truthy. -/
def jsTruthy : JSVal → Bool
  | .null => false
  | .undefined => false
  | .bool b => b
  | .num n => n != 0
  | .str s => s != ""
  | .arr _ => true
  | .obj _ => true

/-- JavaScript `typeof v === 'object'`: true for objects, arrays and `null`. -/
def typeofIsObject : JSVal → Bool
  | .null => true
  | .arr _ => true
  | .obj _ => true
  | _ => false

/-- JavaScript `typeof v === 'number'`. -/
def typeofIsNumber : JSVal → Bool
  | .num _ => true
  | _ => false

/-- JavaScript `typeof v === 'string'`. -/
def typeofIsString : JSVal → Bool
  | .str _ => true
  | _ => false

/-- JavaScript `Array.isArray`. -/
def isArrayVal : JSVal → Bool
  | .arr _ => true
  | _ => false

/-- Lookup in a JavaScript map/object modelled as an association list in
property insertion order (keys unique in the real runtime). -/
def assocGet {α : Type} (fs : List (String × α)) (k : String) : Option α :=
  (fs.find? (fun p => p.1 == k)).map (fun p => p.2)

/-- Write to a JavaScript map/object: update the key in place if present,
otherwise append it. -/
def assocSet {α : Type} (fs : List (String × α)) (k : String) (v : α) :
    List (String × α) :=
  if fs.any (fun p => p.1 == k) then
    fs.map (fun p => if p.1 == k then (k, v) else p)
  else
    fs ++ [(k, v)]

/-- Property read `v[k]` for a string key: on an object, the value stored at
the key; `undefined` otherwise.  (Numeric index properties of arrays and
strings are handled by `spreadFields` where object spread needs them.) -/
def jsGet (v : JSVal) (k : String) : JSVal :=
  match v with
  | .obj fs => (assocGet fs k).getD .undefined
  | _ => .undefined

/-- Property lookup on an association list of object fields, with the
JavaScript `undefined` default. -/
def objGet (fs : List (String × JSVal)) (k : String) : JSVal :=
  (assocGet fs k).getD .undefined

/-- Property write `result[k] = v` on a JavaScript object. -/
def objSet (fs : List (String × JSVal)) (k : String) (v : JSVal) : List (String × JSVal) :=
  assocSet fs k v

/-- The own enumerable string-keyed properties copied by a spread
`\x7b...v\x7d`: an object contributes its fields, an array and a string
contribute their indexed elements, and every other value contributes
nothing. -/
def spreadFields : JSVal → List (String × JSVal)
  | .obj fs => fs
  | .arr xs => xs.enum.map (fun p => (toString p.1, p.2))
  | .str s => s.toList.enum.map (fun p => (toString p.1, .str (String.singleton p.2)))
  | _ => []

/-- JavaScript `v || \x7b\x7d`, as used by `deepMerge` for `target[key]`. -/
def jsOrEmpty (v : JSVal) : JSVal :=
  if jsTruthy v then v else .obj []

/-- The body of `deepMerge` from `src/src/utils.ts`: starting from a copy of
the target (`result = \x7b...target\x7d`), fold over the source's entries in
order.  A source value that is truthy, of object type and not an array (i.e.
exactly a non-null, non-array object) is merged recursively against
`target[key] || \x7b\x7d`; the value `undefined` is skipped; every other value
replaces the target's value wholesale. -/
def deepMergeLoop (target : JSVal) (result : List (String × JSVal)) :
    List (String × JSVal) → List (String × JSVal)
  | [] => result
  | (k, v) :: rest =>
    match v with
    | .obj vf =>
        deepMergeLoop target
          (objSet result k (.obj (deepMergeLoop (jsOrEmpty (jsGet target k))
            (spreadFields (jsOrEmpty (jsGet target k))) vf))) rest
    | .undefined => deepMergeLoop target result rest
    | w => deepMergeLoop target (objSet result k w) rest
  termination_by s => sizeOf s
  decreasing_by
    all_goals simp_wf
    all_goals omega

/-- `deepMerge(target, source)` from `src/src/utils.ts` (the source argument
is the entry list of the `Partial<T>` record). -/
def deepMerge (target : JSVal) (source : List (String × JSVal)) : List (String × JSVal) :=
  deepMergeLoop target (spreadFields target) source

/-- One iteration of the `deepMerge` loop body: how the `result` accumulator
is updated for a single source entry `(k, v)` (see `deepMergeLoop`). -/
def deepMergeStep (target : JSVal) (result : List (String × JSVal)) (k : String) :
    JSVal → List (String × JSVal)
  | .obj vf =>
      objSet result k (.obj (deepMergeLoop (jsOrEmpty (jsGet target k))
        (spreadFields (jsOrEmpty (jsGet target k))) vf))
  | .undefined => result
  | w => objSet result k w

/-- A concrete merge target for exercising `deepMerge`. -/
def deepMergeExTarget : List (String × JSVal) :=
  [("a", .num 1), ("b", .num 2), ("c", .obj [("x", .num 3)]), ("d", .num 4)]

/-- A concrete merge source: an explicitly-undefined override, an array
override and a nested-object override. -/
def deepMergeExSource : List (String × JSVal) :=
  [("a", .undefined), ("b", .arr [.num 9]), ("c", .obj [("y", .num 5)])]

/-! ## Consent records (`src/src/CookiePlugin.ts`) -/

/-- A `ConsentData` record as built by the widget: `timestamp` (epoch ms),
`version`, and the per-category boolean map (association list in insertion
order, mirroring the JavaScript object). -/
structure ConsentData where
  timestamp : Nat
  version : String
  categories : List (String × Bool)
deriving DecidableEq

/-- Boolean map update `categories[category] = checked` (unique keys in the
real JavaScript object; update in place, else append). -/
def setBoolField (fs : List (String × Bool)) (k : String) (b : Bool) : List (String × Bool) :=
  assocSet fs k b

/-- Boolean map lookup. -/
def getBoolField (fs : List (String × Bool)) (k : String) : Option Bool :=
  assocGet fs k

/-- `acceptAll` (`src/src/CookiePlugin.ts` lines 852-878): the record it
builds and saves, with `Date.now()` and configured version as parameters. -/
def acceptAllConsent (now : Nat) (version : String) : ConsentData :=
  { timestamp := now
    version := version
    categories :=
      [("essential", true), ("analytics", true), ("marketing", true), ("preferences", true)] }

/-- `rejectAll` (`src/src/CookiePlugin.ts` lines 883-909): the record it
builds and saves. -/
def rejectAllConsent (now : Nat) (version : String) : ConsentData :=
  { timestamp := now
    version := version
    categories :=
      [("essential", true), ("analytics", false), ("marketing", false), ("preferences", false)] }

/-- The checkbox-collecting loop of `saveCustomPreferences`
(`src/src/CookiePlugin.ts` lines 918-925): for every checkbox input of the
modal carrying a `data-category`, record its checked state in the
`categories` object.  The modal's checkbox states are the input. -/
def collectCheckboxCategories (inputs : List (String × Bool)) : List (String × Bool) :=
  inputs.foldl (fun acc p => setBoolField acc p.1 p.2) []

/-- `saveCustomPreferences` (`src/src/CookiePlugin.ts` lines 914-945): the
record it builds and saves from the modal's checkbox states.  No category is
forced to any value: each checkbox's state is copied verbatim. -/
def saveCustomPreferencesConsent (now : Nat) (version : String)
    (inputs : List (String × Bool)) : ConsentData :=
  { timestamp := now
    version := version
    categories := collectCheckboxCategories inputs }

/-- The initial checked state a category's modal checkbox is rendered with
(`getModalHTML`, `src/src/CookiePlugin.ts` lines 769-775): checked when the
category is required or the previous consent record granted it; a required
category's checkbox is additionally rendered `disabled`, so the user cannot
toggle it. -/
def renderedChecked (required : Bool) (prevGranted : Bool) : Bool :=
  required || prevGranted

/-! ## Loading stored consent (`src/src/CookiePlugin.ts` lines 570-597) -/

/-- `isValidConsent` (`src/src/CookiePlugin.ts` lines 590-597): the parsed
value must be truthy, of object type, with a numeric `timestamp`, a string
`version`, and a truthy object-typed `categories` property. -/
def isValidConsent (consent : JSVal) : Bool :=
  jsTruthy consent &&
  typeofIsObject consent &&
  typeofIsNumber (jsGet consent "timestamp") &&
  typeofIsString (jsGet consent "version") &&
  jsTruthy (jsGet consent "categories") &&
  typeofIsObject (jsGet consent "categories")

/-- The stored consent cookie as seen by `loadConsent`: `none` when the cookie
is absent, `some none` when the cookie value is not valid JSON (so
`JSON.parse` throws), and `some (some v)` when it parses to `v`. -/
abbrev StoredCookie := Option (Option JSVal)

/-- `loadConsent` (`src/src/CookiePlugin.ts` lines 570-585): on a missing
cookie, a JSON parse failure, or a parsed value failing `isValidConsent`,
the result is `null`; otherwise the parsed value. -/
def loadConsent (stored : StoredCookie) : Option JSVal :=
  match stored with
  | none => none
  | some none => none
  | some (some v) => if isValidConsent v then some v else none

/-! ## AutoBlocker (`src/unnamed/part_005`, class `AutoBlocker`) -/

/-- A blocking rule: domain-substring pattern, resource type and category. -/
structure BlockRule where
  id : String
  name : String
  pattern : String
  type : String
  category : String
  enabled : Bool
  description : String
deriving DecidableEq

/-- `String.prototype.includes`: substring containment. -/
def strIncludes (hay needle : String) : Bool :=
  decide (needle.toList <:+: hay.toList)

/-- The default rule list installed by `initializeDefaultRules`
(`src/unnamed/part_005` lines 24-63). -/
def defaultRules : List BlockRule :=
  [ { id := "google-analytics", name := "Google Analytics",
      pattern := "google-analytics.com", type := "script", category := "analytics",
      enabled := true, description := "Blocks Google Analytics tracking" },
    { id := "google-tag-manager", name := "Google Tag Manager",
      pattern := "googletagmanager.com", type := "script", category := "analytics",
      enabled := true, description := "Blocks Google Tag Manager" },
    { id := "facebook-pixel", name := "Facebook Pixel",
      pattern := "connect.facebook.net", type := "script", category := "marketing",
      enabled := true, description := "Blocks Facebook Pixel tracking" },
    { id := "hotjar", name := "Hotjar",
      pattern := "static.hotjar.com", type := "script", category := "analytics",
      enabled := true, description := "Blocks Hotjar tracking" } ]

/-- The `AutoBlocker`'s state: its rule list and the `isEnabled` flag.  Note
that the class holds no consent state whatsoever. -/
structure AutoBlocker where
  rules : List BlockRule
  isEnabled : Bool
deriving DecidableEq

/-- `shouldBlockScript(url)` (`src/unnamed/part_005` lines 159-165): blocking
is enabled and some enabled rule of type `script` has its pattern contained
in the url.  The consent state is not an input: no category consent is ever
consulted. -/
def shouldBlockScript (b : AutoBlocker) (url : String) : Bool :=
  b.isEnabled && b.rules.any (fun rule =>
    rule.enabled && rule.type == "script" && strIncludes url rule.pattern)

/-- The guard installed on a created script element's `src` setter by
`applyBlocking` (`src/unnamed/part_005` lines 94-103): the assignment goes
through (and the network request fires) unless the element itself carries a
`shouldBlockScript` property that returns true for the url.  Returns whether
the `src` is assigned. -/
def srcSetterAssigns (elementShouldBlockScript : Option (String → Bool)) (url : String) : Bool :=
  match elementShouldBlockScript with
  | none => true
  | some f => !(f url)

/-- `applyBlocking` installs the setter guard on every created script element
but never defines a `shouldBlockScript` property on the element, so the
guard's `this.shouldBlockScript` lookup yields `undefined`. -/
def createdScriptElementGuard : Option (String → Bool) := none

/-! ## Rate limiting (`src/backend/middleware/index.js` lines 56-89 and
`src/backend/src/middleware/index.ts` lines 94-128) -/

/-- Per-client window data held in the rate-limit store. -/
structure ClientData where
  count : Nat
  resetTime : Nat
deriving DecidableEq

/-- Rate-limit configuration; the defaults from `src/backend/config/index.js`
are 15 minutes and 100 requests. -/
structure RateLimitConfig where
  windowMs : Nat
  maxRequests : Nat
deriving DecidableEq

/-- The default configuration: 100 requests per 15-minute window. -/
def rateLimitDefault : RateLimitConfig :=
  { windowMs := 15 * 60 * 1000, maxRequests := 100 }

/-- Outcome of the rate-limit middleware for one request: pass the request on
(`next`) or answer 429 with the computed `retryAfter` seconds. -/
inductive RateLimitOutcome where
  | next
  | tooManyRequests (retryAfter : Nat)
deriving DecidableEq

/-- The rate-limit store: client IP to window data. -/
abbrev RateLimitStore := List (String × ClientData)

/-- Store lookup. -/
def storeGet (store : RateLimitStore) (ip : String) : Option ClientData :=
  assocGet store ip

/-- Store write (update in place, else append). -/
def storeSet (store : RateLimitStore) (ip : String) (d : ClientData) : RateLimitStore :=
  assocSet store ip d

/-- One step of `rateLimitMiddleware` (`src/backend/middleware/index.js`
lines 56-89): fetch or initialise the client's window data, reset it when the
window has passed, answer 429 with
`retryAfter = Math.ceil((resetTime - now) / 1000)` when the count has reached
the budget (the early return leaves the store unmodified), otherwise
increment the counter and store it. -/
def rateLimitStep (cfg : RateLimitConfig) (store : RateLimitStore) (ip : String)
    (now : Nat) : RateLimitOutcome × RateLimitStore :=
  let clientData := (storeGet store ip).getD { count := 0, resetTime := now + cfg.windowMs }
  let clientData :=
    if now > clientData.resetTime then
      { count := 0, resetTime := now + cfg.windowMs }
    else clientData
  if clientData.count ≥ cfg.maxRequests then
    (.tooManyRequests ((clientData.resetTime - now + 999) / 1000), store)
  else
    (.next, storeSet store ip { clientData with count := clientData.count + 1 })

/-- The health-check exemption: the TypeScript limiter
(`src/backend/src/middleware/index.ts` lines 123-126) skips requests whose
path is `/api/health`; the legacy router likewise attaches
`rateLimitMiddleware` to every public route except the health route. -/
def rateLimitSkip (path : String) : Bool :=
  path == "/api/health"

/-- Dispatch of one request through the rate limiter: an exempt path passes
straight through without touching the store; every other request goes through
`rateLimitStep`. -/
def handleRatedRequest (cfg : RateLimitConfig) (store : RateLimitStore)
    (ip path : String) (now : Nat) : RateLimitOutcome × RateLimitStore :=
  if rateLimitSkip path then (.next, store) else rateLimitStep cfg store ip now

/-- Run a sequence of non-exempt requests from a single IP at the given
times, collecting the outcomes. -/
def runSameIp (cfg : RateLimitConfig) (ip : String) :
    RateLimitStore → List Nat → List RateLimitOutcome × RateLimitStore
  | store, [] => ([], store)
  | store, t :: ts =>
    let r := rateLimitStep cfg store ip t
    let rest := runSameIp cfg ip r.2 ts
    (r.1 :: rest.1, rest.2)

/-! ## Server-side TTL cache (`src/unnamed/part_002`, class
`ModernCacheService`) -/

/-- A cache entry: the stored data and its absolute expiry time (epoch ms). -/
structure CacheItem (α : Type) where
  data : α
  expires : Nat
deriving DecidableEq

/-- The cache map. -/
abbrev CacheMap (α : Type) := List (String × CacheItem α)

/-- Map lookup. -/
def cacheMapGet {α : Type} (cache : CacheMap α) (key : String) : Option (CacheItem α) :=
  assocGet cache key

/-- Map write (update in place, else append). -/
def cacheMapSet {α : Type} (cache : CacheMap α) (key : String) (item : CacheItem α) :
    CacheMap α :=
  assocSet cache key item

/-- `Map.prototype.delete`. -/
def cacheMapDelete {α : Type} (cache : CacheMap α) (key : String) : CacheMap α :=
  cache.filter (fun p => !(p.1 == key))

/-- `ModernCacheService.get` (`src/unnamed/part_002` lines 172-184): `null`
when caching is disabled or the key is absent; an entry past its expiry is
deleted and `null` returned; otherwise the stored data.  Returns the result
and the possibly-updated map. -/
def cacheGet {α : Type} (enabled : Bool) (cache : CacheMap α) (key : String)
    (now : Nat) : Option α × CacheMap α :=
  if !enabled then (none, cache)
  else
    match cacheMapGet cache key with
    | none => (none, cache)
    | some item =>
      if now > item.expires then (none, cacheMapDelete cache key)
      else (some item.data, cache)

/-- `ModernCacheService.set` (`src/unnamed/part_002` lines 186-193): a no-op
when caching is disabled; otherwise store the data with expiry
`now + ttl * 1000` (ttl in seconds). -/
def cacheSet {α : Type} (enabled : Bool) (cache : CacheMap α) (key : String)
    (data : α) (ttl : Nat) (now : Nat) : CacheMap α :=
  if !enabled then cache
  else cacheMapSet cache key { data := data, expires := now + ttl * 1000 }

/-- `ModernCacheService.delete` (`src/unnamed/part_002` lines 195-198). -/
def cacheDelete {α : Type} (enabled : Bool) (cache : CacheMap α) (key : String) :
    CacheMap α :=
  if !enabled then cache else cacheMapDelete cache key

/-! ## Configuration schema validation (`src/unnamed/part_002`, zod schemas
and `ValidationService.validateConfig`) -/

/-- One field-level issue of a failed validation, as mapped by
`ValidationService.validateConfig`: the dotted field path and a message. -/
structure ValidationIssue where
  field : String
  message : String
deriving DecidableEq

/-- A cookie category of a configuration document (`cookieCategorySchema`). -/
structure CategoryConfig where
  name : String
  description : String
  required : Bool
  cookies : List String
  order : Int
  enabled : Bool
deriving DecidableEq

/-- The four fixed categories of a configuration document. -/
structure CategoriesConfig where
  essential : CategoryConfig
  analytics : CategoryConfig
  marketing : CategoryConfig
  preferences : CategoryConfig
deriving DecidableEq

/-- The banner texts of a configuration document (`textConfigSchema`). -/
structure TextConfig where
  title : String
  description : String
  acceptAll : String
  rejectAll : String
  customize : String
  save : String
  close : String
  moreInfo : String
  cookiePolicy : String
  privacyPolicy : String
deriving DecidableEq

/-- The UI theme tokens of a configuration document (`uiConfigSchema`). -/
structure UIConfig where
  primaryColor : String
  secondaryColor : String
  borderRadius : String
  fontFamily : String
  fontSize : String
  animation : Bool
  backdrop : Bool
deriving DecidableEq

/-- The cookie settings of a configuration document
(`cookieSettingsSchema`). -/
structure CookieSettings where
  name : String
  expiry : Int
  domain : String
  path : String
  secure : Bool
  sameSite : String
deriving DecidableEq

/-- A full configuration document (`cookieConfigSchema`).  The model takes
every field as present, so the zod `.default(...)` clauses (which fire only
on absent fields) never apply. -/
structure CookieConfig where
  language : String
  country : Option String
  region : Option String
  texts : TextConfig
  categories : CategoriesConfig
  ui : UIConfig
  cookieSettings : CookieSettings
  enabled : Bool
  version : String
deriving DecidableEq

/-- JavaScript `toLowerCase()` restricted to its ASCII action (language keys
are ASCII language codes). -/
def jsToLowerChar (c : Char) : Char :=
  if 'A' ≤ c && c ≤ 'Z' then Char.ofNat (c.toNat + 32) else c

/-- JavaScript `s.toLowerCase()` on a language key. -/
def jsToLower (s : String) : String :=
  ⟨s.data.map jsToLowerChar⟩

/-- A lowercase letter, for the language-code pattern. -/
def isLowerAlpha (c : Char) : Bool :=
  'a' ≤ c && c ≤ 'z'

/-- An uppercase letter, for the country-code pattern. -/
def isUpperAlpha (c : Char) : Bool :=
  'A' ≤ c && c ≤ 'Z'

/-- A hexadecimal digit, for the color pattern. -/
def isHexDigit (c : Char) : Bool :=
  ('0' ≤ c && c ≤ '9') || ('A' ≤ c && c ≤ 'F') || ('a' ≤ c && c ≤ 'f')

/-- The language-code regex of `cookieConfigSchema`:
two lowercase letters, optionally followed by a dash and two more. -/
def isLangCode (s : String) : Bool :=
  match s.toList with
  | [a, b] => isLowerAlpha a && isLowerAlpha b
  | [a, b, '-', c, d] => isLowerAlpha a && isLowerAlpha b && isLowerAlpha c && isLowerAlpha d
  | _ => false

/-- The country-code regex of `cookieConfigSchema`: two uppercase letters. -/
def isCountryCode (s : String) : Bool :=
  match s.toList with
  | [a, b] => isUpperAlpha a && isUpperAlpha b
  | _ => false

/-- The 6-hex-digit color regex of `uiConfigSchema`. -/
def isHexColor (s : String) : Bool :=
  match s.toList with
  | '#' :: rest => rest.length == 6 && rest.all isHexDigit
  | _ => false

/-- A zod bounded-string check `z.string().min(lo).max(hi)` at a field
path. -/
def checkStr (path : String) (s : String) (lo hi : Nat) : List ValidationIssue :=
  if s.length < lo then [{ field := path, message := "Too short" }]
  else if s.length > hi then [{ field := path, message := "Too long" }]
  else []

/-- A zod bounded-int check at a field path. -/
def checkIntRange (path : String) (n : Int) (lo hi : Int) : List ValidationIssue :=
  if n < lo then [{ field := path, message := "Too small" }]
  else if n > hi then [{ field := path, message := "Too big" }]
  else []

/-- `cookieCategorySchema` applied at a field path. -/
def validateCategory (path : String) (c : CategoryConfig) : List ValidationIssue :=
  checkStr (path ++ ".name") c.name 1 100 ++
  checkStr (path ++ ".description") c.description 1 500 ++
  checkIntRange (path ++ ".order") c.order 0 c.order

/-- `textConfigSchema` applied at the `texts` path. -/
def validateTexts (t : TextConfig) : List ValidationIssue :=
  checkStr "texts.title" t.title 1 100 ++
  checkStr "texts.description" t.description 1 500 ++
  checkStr "texts.acceptAll" t.acceptAll 1 50 ++
  checkStr "texts.rejectAll" t.rejectAll 1 50 ++
  checkStr "texts.customize" t.customize 1 50 ++
  checkStr "texts.save" t.save 1 50 ++
  checkStr "texts.close" t.close 1 50 ++
  checkStr "texts.moreInfo" t.moreInfo 1 50 ++
  checkStr "texts.cookiePolicy" t.cookiePolicy 1 50 ++
  checkStr "texts.privacyPolicy" t.privacyPolicy 1 50

/-- `uiConfigSchema` applied at the `ui` path: both colors must match the
6-hex-digit pattern; the remaining fields carry no constraint. -/
def validateUI (u : UIConfig) : List ValidationIssue :=
  (if isHexColor u.primaryColor then []
   else [{ field := "ui.primaryColor", message := "Invalid" }]) ++
  (if isHexColor u.secondaryColor then []
   else [{ field := "ui.secondaryColor", message := "Invalid" }])

/-- `cookieSettingsSchema` applied at the `cookieSettings` path. -/
def validateCookieSettings (s : CookieSettings) : List ValidationIssue :=
  checkStr "cookieSettings.name" s.name 1 50 ++
  checkIntRange "cookieSettings.expiry" s.expiry 1 3650 ++
  checkStr "cookieSettings.domain" s.domain 0 100 ++
  checkStr "cookieSettings.path" s.path 0 100 ++
  (if s.sameSite == "Strict" || s.sameSite == "Lax" || s.sameSite == "None" then []
   else [{ field := "cookieSettings.sameSite", message := "Invalid enum value" }])

/-- `ValidationService.validateConfig` (`src/unnamed/part_002` lines 91-124):
`cookieConfigSchema.safeParse`, with each issue mapped to its dotted field
path.  Validity is an empty issue list. -/
def validateConfig (c : CookieConfig) : List ValidationIssue :=
  (if isLangCode c.language then [] else [{ field := "language", message := "Invalid" }]) ++
  (match c.country with
   | none => []
   | some s => if isCountryCode s then [] else [{ field := "country", message := "Invalid" }]) ++
  validateTexts c.texts ++
  validateCategory "categories.essential" c.categories.essential ++
  validateCategory "categories.analytics" c.categories.analytics ++
  validateCategory "categories.marketing" c.categories.marketing ++
  validateCategory "categories.preferences" c.categories.preferences ++
  validateUI c.ui ++
  validateCookieSettings c.cookieSettings

/-! ## Configuration controller (`src/backend/src/controllers/index.ts`,
class `CookieConfigController`) -/

/-- A stored document: the configuration plus audit fields. -/
structure StoredConfig where
  doc : CookieConfig
  createdBy : Option String
  updatedBy : Option String
deriving DecidableEq

/-- The document store (unique language keys in the real store). -/
abbrev ConfigDb := List StoredConfig

/-- `CookieConfig.findOne(\x7blanguage, enabled: true\x7d)`. -/
def dbFindEnabled (db : ConfigDb) (lang : String) : Option StoredConfig :=
  db.find? (fun s => s.doc.language == lang && s.doc.enabled)

/-- `CookieConfig.findOne(\x7blanguage\x7d)`. -/
def dbFindAny (db : ConfigDb) (lang : String) : Option StoredConfig :=
  db.find? (fun s => s.doc.language == lang)

/-- Saving an updated document: replace the first entry with the given
language key. -/
def dbReplaceFirst (db : ConfigDb) (lang : String) (f : StoredConfig → StoredConfig) :
    ConfigDb :=
  match db with
  | [] => []
  | s :: rest =>
    if s.doc.language == lang then f s :: rest
    else s :: dbReplaceFirst rest lang f

/-- The server's relevant state: cache enablement, the TTL cache and the
document store. -/
structure ServerState where
  cacheEnabled : Bool
  cache : CacheMap StoredConfig
  db : ConfigDb

/-- Result of `getConfigByLanguage`: success carries the document and the
`source` tag of the response envelope; a missing document is a
`NotFoundError`. -/
inductive GetResult where
  | okCache (doc : StoredConfig)
  | okDb (doc : StoredConfig)
  | notFound

/-- Result of `createOrUpdateConfig`: the saved document, or a
`ValidationError` with its field-level issues. -/
inductive UpsertResult where
  | ok (doc : StoredConfig)
  | validationError (errors : List ValidationIssue)

/-- `getConfigByLanguage` (`src/backend/src/controllers/index.ts` lines
29-78): cache key `cookie-config-` + the raw language parameter; serve from
the TTL cache on a hit; otherwise query the store for an enabled document
whose language is the lowercased parameter (404 when absent) and populate
the cache with a 300 s TTL.  (The controller's `isEnabled` guards are
subsumed by the checks inside `cacheGet` / `cacheSet`.) -/
def getConfigByLanguage (st : ServerState) (language : String) (now : Nat) :
    GetResult × ServerState :=
  let cacheKey := "cookie-config-" ++ language
  match cacheGet st.cacheEnabled st.cache cacheKey now with
  | (some cached, cache') => (.okCache cached, { st with cache := cache' })
  | (none, cache') =>
    match dbFindEnabled st.db (jsToLower language) with
    | none => (.notFound, { st with cache := cache' })
    | some config =>
      (.okDb config, { st with cache := cacheSet st.cacheEnabled cache' cacheKey config 300 now })

/-- `createOrUpdateConfig` (`src/backend/src/controllers/index.ts` lines
135-185): validate the body (a `ValidationError` aborts before the store or
cache is touched); then either `Object.assign` the validated data onto the
existing document with that lowercased language key (stamping `updatedBy`)
or create a new document with the language forced to the lowercased
parameter (stamping `createdBy`); finally evict the cache entry
`cookie-config-` + the raw language parameter. -/
def createOrUpdateConfig (st : ServerState) (language : String) (body : CookieConfig)
    (user : Option String) : UpsertResult × ServerState :=
  match validateConfig body with
  | _ :: _ => (.validationError (validateConfig body), st)
  | [] =>
    let key := jsToLower language
    let (saved, db') :=
      match dbFindAny st.db key with
      | some existing =>
        let updated : StoredConfig :=
          { doc := body, createdBy := existing.createdBy, updatedBy := user }
        (updated, dbReplaceFirst st.db key (fun _ => updated))
      | none =>
        let created : StoredConfig :=
          { doc := { body with language := key }, createdBy := user, updatedBy := none }
        (created, st.db ++ [created])
    let cache' := cacheDelete st.cacheEnabled st.cache ("cookie-config-" ++ language)
    (.ok saved, { st with cache := cache', db := db' })

/-- A concrete configuration document matching the repository's default
English document (`src/unnamed/part_002`, `defaultConfigurations.en`),
fully valid under `validateConfig`. -/
def exampleConfig : CookieConfig :=
  { language := "en"
    country := none
    region := none
    texts :=
      { title := "Cookie Consent"
        description := "We use cookies to enhance your browsing experience."
        acceptAll := "Accept All"
        rejectAll := "Reject All"
        customize := "Customize"
        save := "Save Preferences"
        close := "Close"
        moreInfo := "More Information"
        cookiePolicy := "Cookie Policy"
        privacyPolicy := "Privacy Policy" }
    categories :=
      { essential :=
          { name := "Essential"
            description := "These cookies are necessary for the website to function properly."
            required := true
            cookies := ["session", "csrf", "language"]
            order := 0
            enabled := true }
        analytics :=
          { name := "Analytics"
            description := "These cookies help us understand how visitors interact with our website."
            required := false
            cookies := ["_ga", "_gid", "_gat"]
            order := 1
            enabled := true }
        marketing :=
          { name := "Marketing"
            description := "These cookies are used to deliver personalized advertisements."
            required := false
            cookies := ["_fbp", "fr"]
            order := 2
            enabled := true }
        preferences :=
          { name := "Preferences"
            description := "These cookies remember your preferences and settings."
            required := false
            cookies := ["theme", "language", "timezone"]
            order := 3
            enabled := true } }
    ui :=
      { primaryColor := "#007bff"
        secondaryColor := "#6c757d"
        borderRadius := "8px"
        fontFamily := "system-ui, sans-serif"
        fontSize := "14px"
        animation := true
        backdrop := true }
    cookieSettings :=
      { name := "ns-cookie-consent"
        expiry := 365
        domain := ""
        path := "/"
        secure := false
        sameSite := "Lax" }
    enabled := true
    version := "1.0.0" }

/-- The example configuration with the invalid primary color `"blue"`. -/
def blueConfig : CookieConfig :=
  { exampleConfig with ui := { exampleConfig.ui with primaryColor := "blue" } }

/-! ## Widget backend-config loader (`src/src/CookiePluginWithBackend.ts`,
`loadBackendConfig`, lines 70-117) -/

/-- The backend options relevant to caching: the `enableCache` flag (default
true) and the `cacheTimeout` in milliseconds (default 300000). -/
structure BackendOptions where
  enableCache : Bool
  cacheTimeout : Nat
deriving DecidableEq

/-- Outcome of the awaited `fetch` + `response.json()`: a network failure or
timeout, or a response with its `ok` flag and the parsed body's `success`
and `data` fields. -/
inductive FetchOutcome where
  | networkFailure
  | response (respOk : Bool) (success : JSVal) (data : JSVal)

/-- `loadBackendConfig`: serve the in-process cache entry when caching is
enabled and the entry's age is below the timeout (no fetch); otherwise fetch,
throw on `!response.ok` or a body without truthy `success` and `data`, and
on success cache the data (when caching is enabled) stamped with the current
time.  Returns the result, the new cache entry, and whether a network fetch
was performed. -/
def loadBackendConfig (opts : BackendOptions) (cache : Option (JSVal × Nat)) (now : Nat)
    (fetch : FetchOutcome) : Except Unit JSVal × Option (JSVal × Nat) × Bool :=
  match cache with
  | some (d, ts) =>
    if opts.enableCache && now - ts < opts.cacheTimeout then
      (.ok d, cache, false)
    else loadBackendConfigFetch opts cache now fetch
  | none => loadBackendConfigFetch opts cache now fetch
where
  /-- The fetch path of `loadBackendConfig` (lines 80-116). -/
  loadBackendConfigFetch (opts : BackendOptions) (cache : Option (JSVal × Nat)) (now : Nat)
      (fetch : FetchOutcome) : Except Unit JSVal × Option (JSVal × Nat) × Bool :=
    match fetch with
    | .networkFailure => (.error (), cache, true)
    | .response respOk success data =>
      if !respOk then (.error (), cache, true)
      else if !(jsTruthy success) || !(jsTruthy data) then (.error (), cache, true)
      else if opts.enableCache then (.ok data, some (data, now), true)
      else (.ok data, cache, true)

/-! ## Association-map lemmas -/

lemma assocGet_assocSet_self {α : Type} (fs : List (String × α)) (k : String) (v : α) :
    assocGet (assocSet fs k v) k = some v := by
  induction fs with
  | nil => simp [assocGet, assocSet]
  | cons p rest ih =>
    obtain ⟨k₁, v₁⟩ := p
    by_cases hk : k₁ = k
    · subst hk
      simp [assocSet, assocGet]
    · by_cases ha : rest.any (fun p => p.1 == k)
      · simp only [assocSet, ha] at ih
        simp [assocSet, assocGet, ha, hk] at ih ⊢
        exact ih
      · simp only [assocSet, ha] at ih
        simp [assocSet, assocGet, ha, hk] at ih ⊢
        exact ih

lemma find?_map_setter {α : Type} (fs : List (String × α)) (k k' : String) (v : α)
    (h : ¬ k' = k) :
    (fs.map (fun p => if p.1 == k then (k, v) else p)).find? (fun p => p.1 == k') =
      fs.find? (fun p => p.1 == k') := by
  induction fs with
  | nil => rfl
  | cons p rest ih =>
    rw [List.map_cons]
    by_cases hp : (p.1 == k) = true
    · rw [if_pos hp]
      have h1 : (((k, v) : String × α).1 == k') = false := by simp [Ne.symm h]
      have h2 : (p.1 == k') = false := by
        have hpk : p.1 = k := by simpa using hp
        simp [hpk, Ne.symm h]
      simp only [List.find?_cons, h1, h2, ih]
    · rw [if_neg hp]
      by_cases hq : (p.1 == k') = true
      · simp only [List.find?_cons, hq]
      · have hq' : (p.1 == k') = false := by simpa using hq
        simp only [List.find?_cons, hq', ih]

lemma assocGet_assocSet_ne {α : Type} (fs : List (String × α)) (k k' : String) (v : α)
    (h : ¬ k' = k) :
    assocGet (assocSet fs k v) k' = assocGet fs k' := by
  unfold assocSet assocGet
  by_cases ha : (fs.any fun p => p.1 == k) = true
  · rw [if_pos ha, find?_map_setter fs k k' v h]
  · rw [if_neg ha, List.find?_append]
    have hnone : List.find? (fun p => p.1 == k') [(k, v)] = none := by
      simp [Ne.symm h]
    rw [hnone, Option.or_none]

lemma assocGet_filter_not_self {α : Type} (fs : List (String × α)) (k : String) :
    assocGet (fs.filter (fun p => !(p.1 == k))) k = none := by
  unfold assocGet
  rw [Option.map_eq_none', List.find?_eq_none]
  intro p hp
  simpa using (List.mem_filter.mp hp).2

/-! ## Claim C2: acceptAll and rejectAll category maps -/

/-- C2: every `ConsentRecord` produced by `acceptAll` has all four categories
(essential, analytics, marketing, preferences) true, and every record
produced by `rejectAll` has the required essential category true and every
other category false. -/
theorem acceptAll_allTrue_rejectAll_onlyEssential (now : Nat) (version : String) :
    (getBoolField (acceptAllConsent now version).categories "essential" = some true ∧
     getBoolField (acceptAllConsent now version).categories "analytics" = some true ∧
     getBoolField (acceptAllConsent now version).categories "marketing" = some true ∧
     getBoolField (acceptAllConsent now version).categories "preferences" = some true) ∧
    (getBoolField (rejectAllConsent now version).categories "essential" = some true ∧
     getBoolField (rejectAllConsent now version).categories "analytics" = some false ∧
     getBoolField (rejectAllConsent now version).categories "marketing" = some false ∧
     getBoolField (rejectAllConsent now version).categories "preferences" = some false) :=
  ⟨⟨rfl, rfl, rfl, rfl⟩, ⟨rfl, rfl, rfl, rfl⟩⟩

/-! ## Claim C1: the essential category in persisted records -/

/-- C1 counterexample: `saveCustomPreferences` does not force the essential
category to true; on a checkbox-state input that has essential explicitly
false, the persisted record maps essential to false. -/
theorem saveCustomPreferences_not_forcing_essential :
    getBoolField
      (saveCustomPreferencesConsent 0 "1.0.0" [("essential", false)]).categories
      "essential" = some false :=
  rfl

/-- Provenance of the collected category map: every binding in the map built
by the checkbox fold comes from some input entry (or was already in the
accumulator). -/
lemma collect_fold_provenance (inputs : List (String × Bool))
    (acc : List (String × Bool)) (k : String) (b : Bool)
    (h : assocGet (inputs.foldl (fun a p => setBoolField a p.1 p.2) acc) k = some b) :
    (∃ p ∈ inputs, p.1 = k ∧ p.2 = b) ∨ assocGet acc k = some b := by
  induction inputs generalizing acc with
  | nil => exact Or.inr h
  | cons q rest ih =>
    obtain ⟨k₁, b₁⟩ := q
    simp only [List.foldl_cons] at h
    rcases ih (setBoolField acc k₁ b₁) h with hrest | hacc
    · obtain ⟨p, hp, hpk, hpb⟩ := hrest
      exact Or.inl ⟨p, List.mem_cons_of_mem _ hp, hpk, hpb⟩
    · by_cases hk : k₁ = k
      · subst hk
        rw [setBoolField, assocGet_assocSet_self] at hacc
        have hb : b₁ = b := by injection hacc
        exact Or.inl ⟨(k₁, b₁), List.mem_cons_self _ _, rfl, hb⟩
      · rw [setBoolField, assocGet_assocSet_ne _ _ _ _ (fun hkk => hk hkk.symm)] at hacc
        exact Or.inr hacc

/-- C1 (amended): `acceptAll` and `rejectAll` always persist essential as
true; `saveCustomPreferences` copies the modal checkbox states verbatim, so
the persisted essential value is exactly the essential checkbox's state — it
is true whenever that checkbox is checked, which the rendering guarantees
for a required category (checked and disabled), but an input with essential
explicitly false is persisted as false, not forced to true. -/
theorem persisted_essential_true (now : Nat) (version : String)
    (inputs : List (String × Bool))
    (h : ∀ p ∈ inputs, p.1 = "essential" → p.2 = true) :
    getBoolField (acceptAllConsent now version).categories "essential" = some true ∧
    getBoolField (rejectAllConsent now version).categories "essential" = some true ∧
    (∀ b, getBoolField (saveCustomPreferencesConsent now version inputs).categories
        "essential" = some b → b = true) ∧
    (∀ prevGranted, renderedChecked true prevGranted = true) := by
  refine ⟨rfl, rfl, ?_, fun _ => rfl⟩
  intro b hb
  rcases collect_fold_provenance inputs [] "essential" b hb with hsrc | hacc
  · obtain ⟨p, hp, hpk, hpb⟩ := hsrc
    rw [← hpb]
    exact h p hp hpk
  · simp [assocGet] at hacc

/-- C1 witness: the amended theorem at a concrete checkbox-state input where
every essential checkbox is checked. -/
theorem persisted_essential_true_witness :
    getBoolField (acceptAllConsent 0 "1.0.0").categories "essential" = some true ∧
    getBoolField (rejectAllConsent 0 "1.0.0").categories "essential" = some true ∧
    (∀ b, getBoolField (saveCustomPreferencesConsent 0 "1.0.0"
        [("essential", true), ("analytics", false)]).categories
        "essential" = some b → b = true) ∧
    (∀ prevGranted, renderedChecked true prevGranted = true) :=
  persisted_essential_true 0 "1.0.0" [("essential", true), ("analytics", false)]
    (by decide)

/-! ## Claim C4: malformed stored consent loads as null -/

/-- C4: a stored cookie value that is not valid JSON, or parses to a value
without a numeric `timestamp`, a string `version`, or a truthy object-typed
`categories` field, makes `loadConsent` yield `null`, exactly like an absent
cookie. -/
theorem loadConsent_malformed_yields_none (v : JSVal)
    (h : typeofIsNumber (jsGet v "timestamp") = false ∨
         typeofIsString (jsGet v "version") = false ∨
         jsTruthy (jsGet v "categories") = false ∨
         typeofIsObject (jsGet v "categories") = false) :
    loadConsent (some (some v)) = none ∧
    loadConsent (some none) = none ∧
    loadConsent none = none := by
  refine ⟨?_, rfl, rfl⟩
  have hv : isValidConsent v = false := by
    rcases h with h | h | h | h <;> simp [isValidConsent, h]
  simp [loadConsent, hv]

/-- C4 witness: a parsed value whose `timestamp` is a string, and the
invalid-JSON and absent-cookie cases. -/
theorem loadConsent_malformed_yields_none_witness :
    loadConsent (some (some (.obj [("timestamp", .str "yesterday")]))) = none ∧
    loadConsent (some none) = none ∧
    loadConsent none = none :=
  loadConsent_malformed_yields_none _ (Or.inl rfl)

/-! ## Claim C3: the auto-blocker and consent -/

/-- C3: with blocking enabled and the default rules, `shouldBlockScript`
reports the Google Analytics script as blockable — it takes no consent state
at all, so this holds whatever categories have been consented — and yet the
`src`-setter guard installed by `applyBlocking` always lets the assignment
through, because it reads `shouldBlockScript` off the script element itself,
where no such property exists; no resource load is ever suppressed. -/
theorem autoBlocker_guard_never_blocks :
    shouldBlockScript { rules := defaultRules, isEnabled := true }
      "https://www.google-analytics.com/analytics.js" = true ∧
    (∀ url : String,
      srcSetterAssigns createdScriptElementGuard url = true) :=
  ⟨by decide, fun _ => rfl⟩

/-! ## Claim C9: the server-side TTL cache never serves an expired entry -/

/-- C9: after `set` at time `s` with a ttl of `ttl` seconds, a `get` more
than `ttl` seconds later returns `null` and removes the entry, while a `get`
within `ttl` seconds returns exactly the stored data; with caching disabled,
`get` always returns `null` and `set` stores nothing. -/
theorem cacheService_never_serves_expired (α : Type) (cache : CacheMap α)
    (key : String) (data : α) (ttl s g : Nat) :
    (g > s + ttl * 1000 →
      cacheGet true (cacheSet true cache key data ttl s) key g =
        (none, cacheMapDelete (cacheSet true cache key data ttl s) key)) ∧
    (g ≤ s + ttl * 1000 →
      cacheGet true (cacheSet true cache key data ttl s) key g =
        (some data, cacheSet true cache key data ttl s)) ∧
    (∀ now, cacheGet false cache key now = (none, cache)) ∧
    cacheSet false cache key data ttl s = cache := by
  have hget : cacheMapGet (cacheSet true cache key data ttl s) key =
      some { data := data, expires := s + ttl * 1000 } := by
    simp only [cacheSet, Bool.not_true]
    rw [if_neg (by simp)]
    exact assocGet_assocSet_self cache key _
  refine ⟨?_, ?_, fun now => rfl, rfl⟩
  · intro hg
    simp [cacheGet, hget, hg]
  · intro hg
    simp [cacheGet, hget, Nat.not_lt.mpr hg]

/-- C9 witness: a concrete set at time 0 with a 300 s ttl, read at 300001 ms
(expired, removed) and at 300000 ms (served). -/
theorem cacheService_never_serves_expired_witness :
    cacheGet true (cacheSet true ([] : CacheMap Nat) "cookie-config-en" 42 300 0)
        "cookie-config-en" 300001 =
      (none, cacheMapDelete
        (cacheSet true ([] : CacheMap Nat) "cookie-config-en" 42 300 0)
        "cookie-config-en") ∧
    cacheGet true (cacheSet true ([] : CacheMap Nat) "cookie-config-en" 42 300 0)
        "cookie-config-en" 300000 =
      (some 42, cacheSet true ([] : CacheMap Nat) "cookie-config-en" 42 300 0) :=
  ⟨(cacheService_never_serves_expired Nat [] "cookie-config-en" 42 300 0 300001).1
      (by decide),
   (cacheService_never_serves_expired Nat [] "cookie-config-en" 42 300 0 300000).2.1
      (by decide)⟩

/-! ## Claim C8: the widget's backend-config loader fetches once per TTL
window -/

/-- C8: with caching enabled, a first successful `loadBackendConfig` fetches
and caches; a second call within the cache timeout is served from the cache
with no network fetch (whatever the network would have returned); a third
call at or past the timeout performs a second fetch. -/
theorem loadBackendConfig_single_fetch_within_ttl (opts : BackendOptions)
    (s d : JSVal) (t0 t1 t2 : Nat) (f2 f3 : FetchOutcome)
    (hen : opts.enableCache = true)
    (hs : jsTruthy s = true) (hd : jsTruthy d = true)
    (hwithin : t1 - t0 < opts.cacheTimeout)
    (hafter : opts.cacheTimeout ≤ t2 - t0) :
    loadBackendConfig opts none t0 (.response true s d) = (.ok d, some (d, t0), true) ∧
    loadBackendConfig opts (some (d, t0)) t1 f2 = (.ok d, some (d, t0), false) ∧
    (loadBackendConfig opts (some (d, t0)) t2 f3).2.2 = true := by
  refine ⟨?_, ?_, ?_⟩
  · simp [loadBackendConfig, loadBackendConfig.loadBackendConfigFetch, hen, hs, hd]
  · simp [loadBackendConfig, hen, hwithin]
  · have hnot : ¬ (t2 - t0 < opts.cacheTimeout) := Nat.not_lt.mpr hafter
    cases f3 with
    | networkFailure =>
      simp [loadBackendConfig, loadBackendConfig.loadBackendConfigFetch, hen, hnot]
    | response respOk success data =>
      by_cases hok : respOk = true
      · by_cases h1 : (!jsTruthy success || !jsTruthy data) = true
        · simp [loadBackendConfig, loadBackendConfig.loadBackendConfigFetch,
            hen, hnot, hok, h1]
        · simp [loadBackendConfig, loadBackendConfig.loadBackendConfigFetch,
            hen, hnot, hok, h1]
      · have hko : respOk = false := by simpa using hok
        simp [loadBackendConfig, loadBackendConfig.loadBackendConfigFetch,
          hen, hnot, hko]

/-- C8 witness: concrete times 0, 299999 and 300000 with the default 5-minute
timeout. -/
theorem loadBackendConfig_single_fetch_within_ttl_witness :
    loadBackendConfig { enableCache := true, cacheTimeout := 300000 } none 0
        (.response true (.bool true) (.obj [])) =
      (.ok (.obj []), some ((.obj []), 0), true) ∧
    loadBackendConfig { enableCache := true, cacheTimeout := 300000 }
        (some ((.obj []), 0)) 299999 .networkFailure =
      (.ok (.obj []), some ((.obj []), 0), false) ∧
    (loadBackendConfig { enableCache := true, cacheTimeout := 300000 }
        (some ((.obj []), 0)) 300000 .networkFailure).2.2 = true :=
  loadBackendConfig_single_fetch_within_ttl _ _ _ _ _ _ _ _ rfl rfl rfl
    (by decide) (by decide)

/-! ## Claim C5: the per-IP request budget -/

lemma runSameIp_append (cfg : RateLimitConfig) (ip : String) (store : RateLimitStore)
    (xs ys : List Nat) :
    runSameIp cfg ip store (xs ++ ys) =
      ((runSameIp cfg ip store xs).1 ++
        (runSameIp cfg ip (runSameIp cfg ip store xs).2 ys).1,
       (runSameIp cfg ip (runSameIp cfg ip store xs).2 ys).2) := by
  induction xs generalizing store with
  | nil => simp [runSameIp]
  | cons t ts ih => simp [runSameIp, ih]

lemma rateLimitStep_first (cfg : RateLimitConfig) (ip : String) (t : Nat)
    (hmax : 0 < cfg.maxRequests) :
    rateLimitStep cfg [] ip t =
      (.next, [(ip, { count := 1, resetTime := t + cfg.windowMs })]) := by
  have h1 : ¬ (t > t + cfg.windowMs) := by omega
  have h2 : ¬ (0 ≥ cfg.maxRequests) := by omega
  simp [rateLimitStep, storeGet, assocGet, storeSet, assocSet, h1, h2]

lemma rateLimitStep_counting (cfg : RateLimitConfig) (ip : String) (n R t : Nat)
    (hle : t ≤ R) (hlt : n < cfg.maxRequests) :
    rateLimitStep cfg [(ip, { count := n, resetTime := R })] ip t =
      (.next, [(ip, { count := n + 1, resetTime := R })]) := by
  have h1 : ¬ (t > R) := by omega
  have h2 : ¬ (n ≥ cfg.maxRequests) := by omega
  simp [rateLimitStep, storeGet, assocGet, storeSet, assocSet, h1, h2]

lemma rateLimitStep_exceeded (cfg : RateLimitConfig) (ip : String) (n R t : Nat)
    (hle : t ≤ R) (hge : n ≥ cfg.maxRequests) :
    rateLimitStep cfg [(ip, { count := n, resetTime := R })] ip t =
      (.tooManyRequests ((R - t + 999) / 1000),
       [(ip, { count := n, resetTime := R })]) := by
  have h1 : ¬ (t > R) := by omega
  simp [rateLimitStep, storeGet, assocGet, h1, hge]

lemma runSameIp_under_budget (cfg : RateLimitConfig) (ip : String) (R : Nat)
    (ts : List Nat) :
    ∀ n, (∀ t ∈ ts, t ≤ R) → n + ts.length ≤ cfg.maxRequests →
      runSameIp cfg ip [(ip, { count := n, resetTime := R })] ts =
        (List.replicate ts.length .next,
         [(ip, { count := n + ts.length, resetTime := R })]) := by
  induction ts with
  | nil => intro n _ _; simp [runSameIp]
  | cons t ts ih =>
    intro n hle hcnt
    have hstep := rateLimitStep_counting cfg ip n R t (hle t (List.mem_cons_self t ts))
      (by simp at hcnt; omega)
    have hrest := ih (n + 1) (fun u hu => hle u (List.mem_cons_of_mem _ hu))
      (by simp at hcnt ⊢; omega)
    have harith : n + 1 + ts.length = n + (t :: ts).length := by simp; omega
    simp [runSameIp, hstep, hrest, List.replicate_succ, harith]

/-- C5: with the default budget of 100 requests per 15-minute window, a
single IP's first 100 requests inside one window are all served (`next`),
and the 101st receives a 429 outcome carrying a `retryAfter` value; any
request to the health-check path bypasses the budget entirely and leaves
the store untouched. -/
theorem rateLimit_100_served_101_rejected (ip : String) (t1 : Nat)
    (ts : List Nat) (tLast : Nat)
    (hlen : ts.length = 99)
    (hts : ∀ t ∈ ts, t ≤ t1 + rateLimitDefault.windowMs)
    (hlast : tLast ≤ t1 + rateLimitDefault.windowMs) :
    (runSameIp rateLimitDefault ip [] (t1 :: ts ++ [tLast])).1 =
      List.replicate 100 .next ++
        [.tooManyRequests ((t1 + rateLimitDefault.windowMs - tLast + 999) / 1000)] ∧
    (∀ (store : RateLimitStore) (now : Nat),
      handleRatedRequest rateLimitDefault store ip "/api/health" now = (.next, store)) := by
  constructor
  · have hfirst := rateLimitStep_first rateLimitDefault ip t1 (by decide)
    have hmid := runSameIp_under_budget rateLimitDefault ip
      (t1 + rateLimitDefault.windowMs) ts 1 hts (by rw [hlen]; decide)
    have hexc := rateLimitStep_exceeded rateLimitDefault ip (1 + ts.length)
      (t1 + rateLimitDefault.windowMs) tLast hlast (by rw [hlen]; decide)
    simp only [runSameIp, hfirst]
    rw [List.append_eq, runSameIp_append, hmid]
    simp only [runSameIp, hexc]
    rw [hlen]
    have h100 : List.replicate 100 RateLimitOutcome.next =
        RateLimitOutcome.next :: List.replicate 99 RateLimitOutcome.next := by
      rw [show (100 : Nat) = 99 + 1 from rfl, List.replicate_succ]
    rw [h100, List.cons_append]
  · intro store now
    simp [handleRatedRequest, rateLimitSkip]

/-- C5 witness: 101 concrete requests at time 0 from one IP. -/
theorem rateLimit_100_served_101_rejected_witness :
    (runSameIp rateLimitDefault "203.0.113.7" []
        (0 :: List.replicate 99 0 ++ [0])).1 =
      List.replicate 100 .next ++
        [.tooManyRequests ((0 + rateLimitDefault.windowMs - 0 + 999) / 1000)] ∧
    (∀ (store : RateLimitStore) (now : Nat),
      handleRatedRequest rateLimitDefault store "203.0.113.7" "/api/health" now =
        (.next, store)) :=
  rateLimit_100_served_101_rejected "203.0.113.7" 0 (List.replicate 99 0) 0
    (by decide)
    (fun t ht => by rw [List.eq_of_mem_replicate ht]; exact Nat.zero_le _)
    (Nat.zero_le _)

/-! ## Claim C6: upsert of an invalid primary color -/

/-- C6: upserting a configuration whose `ui.primaryColor` is not a
6-hex-digit color code is rejected with a `ValidationError` whose
field-level issues name `ui.primaryColor`, and the whole server state —
in particular the document store — is left unchanged. -/
theorem upsert_rejects_bad_primaryColor (st : ServerState) (lang : String)
    (body : CookieConfig) (user : Option String)
    (h : isHexColor body.ui.primaryColor = false) :
    (∃ errs, (createOrUpdateConfig st lang body user).1 = .validationError errs ∧
      "ui.primaryColor" ∈ errs.map (fun e => e.field)) ∧
    (createOrUpdateConfig st lang body user).2 = st := by
  have hmem : "ui.primaryColor" ∈ (validateConfig body).map (fun e => e.field) := by
    simp [validateConfig, validateUI, h]
  cases hval : validateConfig body with
  | nil => rw [hval] at hmem; simp at hmem
  | cons e es =>
    refine ⟨⟨validateConfig body, ?_, hmem⟩, ?_⟩
    · simp [createOrUpdateConfig, hval]
    · simp [createOrUpdateConfig, hval]

/-- C6 witness: upserting the example document with primary color `"blue"`
against a concrete state. -/
theorem upsert_rejects_bad_primaryColor_witness :
    (∃ errs,
      (createOrUpdateConfig { cacheEnabled := true, cache := [], db := [] }
          "en" blueConfig none).1 = .validationError errs ∧
      "ui.primaryColor" ∈ errs.map (fun e => e.field)) ∧
    (createOrUpdateConfig { cacheEnabled := true, cache := [], db := [] }
        "en" blueConfig none).2 =
      { cacheEnabled := true, cache := [], db := [] } :=
  upsert_rejects_bad_primaryColor _ _ _ _ rfl

/-! ## Claim C7: upsert evicts the cache so a get returns the fresh
document -/

lemma cacheGet_after_delete {α : Type} (enabled : Bool) (cache : CacheMap α)
    (key : String) (now : Nat) :
    cacheGet enabled (cacheDelete enabled cache key) key now =
      (none, cacheDelete enabled cache key) := by
  cases enabled with
  | false => simp [cacheGet]
  | true =>
    have hnone : cacheMapGet (cacheMapDelete cache key) key = none := by
      unfold cacheMapGet cacheMapDelete
      exact assocGet_filter_not_self cache key
    simp [cacheGet, cacheDelete, hnone]

lemma dbFindEnabled_replaceFirst (db : ConfigDb) (key : String) (s' : StoredConfig)
    (hfound : ∃ e, dbFindAny db key = some e)
    (hlang : s'.doc.language = key) (hen : s'.doc.enabled = true) :
    dbFindEnabled (dbReplaceFirst db key (fun _ => s')) key = some s' := by
  induction db with
  | nil => obtain ⟨e, he⟩ := hfound; simp [dbFindAny] at he
  | cons s rest ih =>
    by_cases hs : (s.doc.language == key) = true
    · simp [dbReplaceFirst, hs, dbFindEnabled, List.find?_cons, hlang, hen]
    · have hs' : (s.doc.language == key) = false := by simpa using hs
      obtain ⟨e, he⟩ := hfound
      have he' : dbFindAny rest key = some e := by
        unfold dbFindAny at he ⊢
        rwa [List.find?_cons, hs'] at he
      have := ih ⟨e, he'⟩
      unfold dbFindEnabled at this ⊢
      simp only [dbReplaceFirst, hs', List.find?_cons]
      simpa [hs'] using this

lemma dbFindEnabled_append_new (db : ConfigDb) (key : String) (s' : StoredConfig)
    (hnone : dbFindAny db key = none)
    (hlang : s'.doc.language = key) (hen : s'.doc.enabled = true) :
    dbFindEnabled (db ++ [s']) key = some s' := by
  unfold dbFindEnabled
  rw [List.find?_append]
  have hleft : List.find? (fun s => s.doc.language == key && s.doc.enabled) db = none := by
    rw [List.find?_eq_none]
    intro x hx
    have hxl := List.find?_eq_none.mp hnone x hx
    simp only [Bool.not_eq_true] at hxl ⊢
    simp [hxl]
  rw [hleft]
  simp [hlang, hen]

/-- C7: a successful upsert for a language evicts the cache entry for that
language, so a subsequent `getConfigByLanguage` for the same language — at
any time, in particular within the cache TTL — reads the store (which the
get queries under the lowercased language) and returns the newly written
document, never a previously cached stale value. -/
theorem upsert_then_get_returns_fresh (st : ServerState) (lang : String)
    (body : CookieConfig) (user : Option String) (now' : Nat)
    (hval : validateConfig body = [])
    (hlang : body.language = jsToLower lang)
    (hen : body.enabled = true) :
    ∃ saved : StoredConfig,
      (createOrUpdateConfig st lang body user).1 = .ok saved ∧
      saved.doc = body ∧
      (getConfigByLanguage (createOrUpdateConfig st lang body user).2 lang now').1 =
        .okDb saved := by
  cases hfind : dbFindAny st.db (jsToLower lang) with
  | some existing =>
    refine ⟨{ doc := body, createdBy := existing.createdBy, updatedBy := user },
      ?_, rfl, ?_⟩
    · simp [createOrUpdateConfig, hval, hfind]
    · have hdb : dbFindEnabled
          (dbReplaceFirst st.db (jsToLower lang)
            (fun _ => { doc := body, createdBy := existing.createdBy, updatedBy := user }))
          (jsToLower lang) =
          some { doc := body, createdBy := existing.createdBy, updatedBy := user } :=
        dbFindEnabled_replaceFirst _ _ _ ⟨existing, hfind⟩ hlang hen
      simp [createOrUpdateConfig, hval, hfind, getConfigByLanguage,
        cacheGet_after_delete, hdb]
  | none =>
    have hbody : ({ body with language := jsToLower lang } : CookieConfig) = body := by
      rw [← hlang]
    refine ⟨{ doc := body, createdBy := user, updatedBy := none }, ?_, rfl, ?_⟩
    · simp [createOrUpdateConfig, hval, hfind, hbody]
    · have hdb : dbFindEnabled (st.db ++ [{ doc := body, createdBy := user, updatedBy := none }])
          (jsToLower lang) = some { doc := body, createdBy := user, updatedBy := none } :=
        dbFindEnabled_append_new _ _ _ hfind hlang hen
      simp [createOrUpdateConfig, hval, hfind, hbody, getConfigByLanguage,
        cacheGet_after_delete, hdb]

/-- C7 witness: upserting the valid example document for `en` into a state
holding a stale cache entry, then reading `en` back. -/
theorem upsert_then_get_returns_fresh_witness :
    ∃ saved : StoredConfig,
      (createOrUpdateConfig
          { cacheEnabled := true
            cache := [("cookie-config-en",
              { data := { doc := blueConfig, createdBy := none, updatedBy := none },
                expires := 999999999 })]
            db := [] } "en" exampleConfig (some "admin")).1 = .ok saved ∧
      saved.doc = exampleConfig ∧
      (getConfigByLanguage
          (createOrUpdateConfig
            { cacheEnabled := true
              cache := [("cookie-config-en",
                { data := { doc := blueConfig, createdBy := none, updatedBy := none },
                  expires := 999999999 })]
              db := [] } "en" exampleConfig (some "admin")).2 "en" 1000).1 =
        .okDb saved :=
  upsert_then_get_returns_fresh _ "en" exampleConfig (some "admin") 1000 rfl (by decide) rfl

/-! ## Claim C10: deepMerge semantics -/

lemma deepMergeLoop_cons (t : JSVal) (r : List (String × JSVal)) (k₁ : String)
    (v₁ : JSVal) (rest : List (String × JSVal)) :
    deepMergeLoop t r ((k₁, v₁) :: rest) =
      deepMergeLoop t (deepMergeStep t r k₁ v₁) rest := by
  cases v₁ <;> simp [deepMergeLoop, deepMergeStep]

lemma deepMergeStep_objGet_ne (t : JSVal) (r : List (String × JSVal))
    (k₁ : String) (v₁ : JSVal) (k : String) (hne : k₁ ≠ k) :
    objGet (deepMergeStep t r k₁ v₁) k = objGet r k := by
  have h' : ¬ k = k₁ := fun h => hne h.symm
  cases v₁ <;>
    first
      | rfl
      | (simp only [deepMergeStep, objGet, objSet]
         rw [assocGet_assocSet_ne _ _ _ _ h'])

lemma deepMergeLoop_objGet_not_mem (t : JSVal) (r s : List (String × JSVal))
    (k : String) (hk : ∀ p ∈ s, p.1 ≠ k) :
    objGet (deepMergeLoop t r s) k = objGet r k := by
  induction s generalizing r with
  | nil => simp [deepMergeLoop]
  | cons q rest ih =>
    obtain ⟨k₁, v₁⟩ := q
    rw [deepMergeLoop_cons,
      ih (deepMergeStep t r k₁ v₁) (fun p hp => hk p (List.mem_cons_of_mem _ hp))]
    exact deepMergeStep_objGet_ne t r k₁ v₁ k (hk (k₁, v₁) (List.mem_cons_self _ _))

lemma deepMergeLoop_objGet_mem (t : JSVal) (r s : List (String × JSVal))
    (k : String) (v : JSVal) (hmem : (k, v) ∈ s)
    (hnd : (s.map Prod.fst).Nodup) :
    (v = .undefined → objGet (deepMergeLoop t r s) k = objGet r k) ∧
    (∀ vf, v = .obj vf → objGet (deepMergeLoop t r s) k =
      .obj (deepMergeLoop (jsOrEmpty (jsGet t k))
        (spreadFields (jsOrEmpty (jsGet t k))) vf)) ∧
    (v ≠ .undefined → (∀ vf, v ≠ .obj vf) → objGet (deepMergeLoop t r s) k = v) := by
  induction s generalizing r with
  | nil => cases hmem
  | cons q rest ih =>
    obtain ⟨k₁, v₁⟩ := q
    rw [List.map_cons] at hnd
    have hnotin : k₁ ∉ rest.map Prod.fst := (List.nodup_cons.mp hnd).1
    have hnd' : (rest.map Prod.fst).Nodup := (List.nodup_cons.mp hnd).2
    rw [deepMergeLoop_cons]
    rcases List.mem_cons.mp hmem with heq | hrest
    · have hk : k = k₁ := congrArg Prod.fst heq
      have hv : v = v₁ := congrArg Prod.snd heq
      subst hk
      subst hv
      have hrestk : ∀ p ∈ rest, p.1 ≠ k := by
        intro p hp hpk
        exact hnotin (hpk ▸ List.mem_map_of_mem Prod.fst hp)
      rw [deepMergeLoop_objGet_not_mem t _ rest k hrestk]
      refine ⟨fun hu => ?_, fun vf hvf => ?_, fun hu ho => ?_⟩
      · subst hu; rfl
      · subst hvf
        simp [deepMergeStep, objGet, objSet, assocGet_assocSet_self]
      · cases v with
        | undefined => exact absurd rfl hu
        | obj vf => exact absurd rfl (ho vf)
        | null => simp [deepMergeStep, objGet, objSet, assocGet_assocSet_self]
        | bool b => simp [deepMergeStep, objGet, objSet, assocGet_assocSet_self]
        | num n => simp [deepMergeStep, objGet, objSet, assocGet_assocSet_self]
        | str sv => simp [deepMergeStep, objGet, objSet, assocGet_assocSet_self]
        | arr xs => simp [deepMergeStep, objGet, objSet, assocGet_assocSet_self]
    · have hk₁ne : k₁ ≠ k := by
        intro hkk
        exact hnotin (hkk ▸ List.mem_map_of_mem Prod.fst hrest)
      have hstep := deepMergeStep_objGet_ne t r k₁ v₁ k hk₁ne
      rcases ih (deepMergeStep t r k₁ v₁) hrest hnd' with ⟨ih1, ih2, ih3⟩
      exact ⟨fun hu => by rw [ih1 hu, hstep], ih2, ih3⟩

/-- C10: for every target object and partial source object with unique keys,
`deepMerge` leaves a key at the target's value whenever the source value at
that key is `undefined` (an explicitly-undefined override does not clear a
default) or the key is absent from the source; a non-undefined array,
primitive or `null` source value replaces the target's value wholesale; and
a nested non-array object is merged key by key against the target's value
at that key (or the empty object when that value is falsy). -/
theorem deepMerge_override_semantics (tf s : List (String × JSVal)) (k : String)
    (hnd : (s.map Prod.fst).Nodup) :
    ((k, JSVal.undefined) ∈ s → objGet (deepMerge (.obj tf) s) k = objGet tf k) ∧
    ((∀ v : JSVal, (k, v) ∉ s) → objGet (deepMerge (.obj tf) s) k = objGet tf k) ∧
    (∀ v : JSVal, (k, v) ∈ s → v ≠ .undefined → (∀ vf, v ≠ .obj vf) →
      objGet (deepMerge (.obj tf) s) k = v) ∧
    (∀ vf, (k, .obj vf) ∈ s →
      objGet (deepMerge (.obj tf) s) k =
        .obj (deepMerge (jsOrEmpty (objGet tf k)) vf)) := by
  have hunfold : deepMerge (.obj tf) s = deepMergeLoop (.obj tf) tf s := rfl
  refine ⟨fun hmem => ?_, fun hnot => ?_, fun v hmem hu ho => ?_, fun vf hmem => ?_⟩
  · rw [hunfold]
    exact (deepMergeLoop_objGet_mem (.obj tf) tf s k .undefined hmem hnd).1 rfl
  · rw [hunfold]
    refine deepMergeLoop_objGet_not_mem (.obj tf) tf s k (fun p hp hpk => ?_)
    exact hnot p.2 (by rw [← hpk, Prod.mk.eta]; exact hp)
  · rw [hunfold]
    exact (deepMergeLoop_objGet_mem (.obj tf) tf s k v hmem hnd).2.2 hu ho
  · rw [hunfold]
    exact (deepMergeLoop_objGet_mem (.obj tf) tf s k (.obj vf) hmem hnd).2.1 vf rfl

/-- C10 witness: the concrete target and source exercising all four cases
(undefined override kept, absent key kept, array replaced wholesale, nested
object merged). -/
theorem deepMerge_override_semantics_witness :
    objGet (deepMerge (.obj deepMergeExTarget) deepMergeExSource) "a" =
      objGet deepMergeExTarget "a" ∧
    objGet (deepMerge (.obj deepMergeExTarget) deepMergeExSource) "d" =
      objGet deepMergeExTarget "d" ∧
    objGet (deepMerge (.obj deepMergeExTarget) deepMergeExSource) "b" =
      .arr [.num 9] ∧
    objGet (deepMerge (.obj deepMergeExTarget) deepMergeExSource) "c" =
      .obj (deepMerge (jsOrEmpty (objGet deepMergeExTarget "c")) [("y", .num 5)]) :=
  ⟨(deepMerge_override_semantics deepMergeExTarget deepMergeExSource "a"
      (by decide)).1 (by simp [deepMergeExSource]),
   (deepMerge_override_semantics deepMergeExTarget deepMergeExSource "d"
      (by decide)).2.1 (fun v => by simp [deepMergeExSource]),
   (deepMerge_override_semantics deepMergeExTarget deepMergeExSource "b"
      (by decide)).2.2.1 (.arr [.num 9]) (by simp [deepMergeExSource])
      (by simp) (fun vf => by simp),
   (deepMerge_override_semantics deepMergeExTarget deepMergeExSource "c"
      (by decide)).2.2.2 [("y", .num 5)] (by simp [deepMergeExSource])⟩

end Cookie
